import Mathlib

/-!
Shallow embedding of the Pong simulation in `script.js`.

The game state is the collection of mutable globals (`player`, `cpu`,
`ball`, `score`); the per-frame `update(dt)` function is modelled as a
composition of steps mirroring the source's sequential mutations, over
exact real arithmetic. `WIDTH`/`HEIGHT` come from the canvas element and
are parameters `W`/`H` here. `Math.random()` is an injected parameter
`r` (and `rd` for the coin flip choosing an unforced serve direction).
-/

noncomputable section

namespace Pong

/-- Fixed paddle width (`PADDLE_WIDTH = 10`). -/
def PADDLE_WIDTH : ℝ := 10

/-- Fixed paddle height (`PADDLE_HEIGHT = 100`). -/
def PADDLE_HEIGHT : ℝ := 100

/-- Horizontal padding of the paddles (`PADDING = 12`). -/
def PADDING : ℝ := 12

/-- Ball radius (`ball.r = 8`). -/
def BALL_R : ℝ := 8

/-- Player paddle max speed (`player.speed = 6`). -/
def PLAYER_SPEED : ℝ := 6

/-- CPU paddle speed (`cpu.speed = 5`). -/
def CPU_SPEED : ℝ := 5

/-- Base ball speed, restored on every serve (`ball.speed = 6`). -/
def BASE_BALL_SPEED : ℝ := 6

/-- `MAX_BOUNCE_ANGLE = (5 * Math.PI) / 12`, about 75 degrees. -/
def MAX_BOUNCE_ANGLE : ℝ := 5 * Real.pi / 12

/-- The player paddle's fixed x coordinate (`player.x = PADDING`). -/
def playerX : ℝ := PADDING

/-- The CPU paddle's fixed x coordinate (`cpu.x = WIDTH - PADDING - PADDLE_WIDTH`). -/
def cpuX (W : ℝ) : ℝ := W - PADDING - PADDLE_WIDTH

/-- The mutable globals of `script.js` gathered into one record:
`player.y`, `player.dy`, `cpu.y`, `ball.x`, `ball.y`, `ball.vx`,
`ball.vy`, `ball.speed`, `score.player`, `score.cpu`. -/
@[ext]
structure GameState where
  playerY : ℝ
  playerDy : ℝ
  cpuY : ℝ
  ballX : ℝ
  ballY : ℝ
  ballVx : ℝ
  ballVy : ℝ
  ballSpeed : ℝ
  scorePlayer : ℕ
  scoreCpu : ℕ

/-- The `keyState` record: whether ArrowUp / ArrowDown are held this tick. -/
structure KeyState where
  up : Bool
  down : Bool

/-- `clamp(v, a, b) = Math.max(a, Math.min(b, v))`. -/
def clamp (v a b : ℝ) : ℝ := max a (min b v)

/-- Serve direction argument of `resetBall`: `'left'`, `'right'`, or
`null` (random direction). -/
inductive ServeDir
  | left
  | right
  | rand

/-- The sign applied to the serve's horizontal velocity:
`direction === 'left' ? -1 : direction === 'right' ? 1 : (Math.random() < 0.5 ? -1 : 1)`,
with `rd` standing for that second `Math.random()` draw. -/
def ServeDir.sign (rd : ℝ) : ServeDir → ℝ
  | .left => -1
  | .right => 1
  | .rand => if rd < 1 / 2 then -1 else 1

/-- `resetBall(direction)`: recenter the ball, restore base speed, and
draw a serve velocity at angle `r * π/3 - π/6` (for the injected random
`r`), directed by `direction`. -/
def resetBall (W H r rd : ℝ) (direction : ServeDir) (s : GameState) : GameState :=
  let angle := r * (Real.pi / 3) - Real.pi / 6
  let dir := direction.sign rd
  { s with
    ballX := W / 2
    ballY := H / 2
    ballSpeed := BASE_BALL_SPEED
    ballVx := dir * BASE_BALL_SPEED * Real.cos angle
    ballVy := BASE_BALL_SPEED * Real.sin angle }

/-- Keyboard block of `update`: derive `player.dy` from the key state,
integrate `player.y += dy * dt`, and clamp to the field. -/
def playerStep (H : ℝ) (ks : KeyState) (dt : ℝ) (s : GameState) : GameState :=
  let dy := if ks.up then -PLAYER_SPEED else if ks.down then PLAYER_SPEED else 0
  { s with
    playerDy := dy
    playerY := clamp (s.playerY + dy * dt) 0 (H - PADDLE_HEIGHT) }

/-- CPU AI block of `update`: track the ball when it moves toward the
CPU, otherwise recenter; step toward the target at most
`cpu.speed * dt * 10`, and clamp to the field. -/
def cpuStep (H dt : ℝ) (s : GameState) : GameState :=
  let targetY := if s.ballVx > 0 then s.ballY - PADDLE_HEIGHT / 2
    else H / 2 - PADDLE_HEIGHT / 2
  let maxStep := CPU_SPEED * dt * 10
  { s with
    cpuY := clamp (s.cpuY + clamp (targetY - s.cpuY) (-maxStep) maxStep) 0 (H - PADDLE_HEIGHT) }

/-- Ball integration block of `update`: `position += velocity * dt * 10`. -/
def moveBall (dt : ℝ) (s : GameState) : GameState :=
  { s with
    ballX := s.ballX + s.ballVx * dt * 10
    ballY := s.ballY + s.ballVy * dt * 10 }

/-- Top/bottom wall collision block of `update`: clamp to the wall and
invert the vertical velocity. -/
def wallStep (H : ℝ) (s : GameState) : GameState :=
  if s.ballY - BALL_R ≤ 0 then
    { s with ballY := BALL_R, ballVy := -s.ballVy }
  else if s.ballY + BALL_R ≥ H then
    { s with ballY := H - BALL_R, ballVy := -s.ballVy }
  else s

/-- The velocity produced by a paddle bounce: angle `relativeY * MAX_BOUNCE_ANGLE`,
scalar speed `Math.hypot(vx, vy) + 0.2`, horizontal sign `sign`
(`+1` for the player paddle's `Math.abs(...)`, `-1` for the CPU's
`-Math.abs(...)`). -/
def bounceVel (relativeY vx vy sign : ℝ) : ℝ × ℝ :=
  let bounceAngle := relativeY * MAX_BOUNCE_ANGLE
  let speed := Real.sqrt (vx ^ 2 + vy ^ 2) + 0.2
  (sign * |Real.cos bounceAngle * speed|, Real.sin bounceAngle * speed)

/-- Left (player) paddle collision block of `update`. -/
def playerPaddleStep (s : GameState) : GameState :=
  if s.ballX - BALL_R ≤ playerX + PADDLE_WIDTH ∧ playerX ≤ s.ballX - BALL_R ∧
      s.playerY ≤ s.ballY + BALL_R ∧ s.ballY - BALL_R ≤ s.playerY + PADDLE_HEIGHT then
    let relativeY := (s.ballY - (s.playerY + PADDLE_HEIGHT / 2)) / (PADDLE_HEIGHT / 2)
    let v := bounceVel relativeY s.ballVx s.ballVy 1
    { s with
      ballVx := v.1
      ballVy := v.2
      ballX := playerX + PADDLE_WIDTH + BALL_R + 0.5 }
  else s

/-- Right (CPU) paddle collision block of `update`. -/
def cpuPaddleStep (W : ℝ) (s : GameState) : GameState :=
  if cpuX W ≤ s.ballX + BALL_R ∧ s.ballX + BALL_R ≤ cpuX W + PADDLE_WIDTH ∧
      s.cpuY ≤ s.ballY + BALL_R ∧ s.ballY - BALL_R ≤ s.cpuY + PADDLE_HEIGHT then
    let relativeY := (s.ballY - (s.cpuY + PADDLE_HEIGHT / 2)) / (PADDLE_HEIGHT / 2)
    let v := bounceVel relativeY s.ballVx s.ballVy (-1)
    { s with
      ballVx := v.1
      ballVy := v.2
      ballX := cpuX W - BALL_R - 0.5 }
  else s

/-- Scoring block of `update`: past the left margin the CPU scores and
the ball is served with `resetBall('right')`; past the right margin the
player scores and the ball is served with `resetBall('left')`. -/
def scoreStep (W H r rd : ℝ) (s : GameState) : GameState :=
  if s.ballX < -50 then
    resetBall W H r rd .right { s with scoreCpu := s.scoreCpu + 1 }
  else if s.ballX > W + 50 then
    resetBall W H r rd .left { s with scorePlayer := s.scorePlayer + 1 }
  else s

/-- The state of `update(dt)` just before the scoring block: all blocks
of `update` applied in source order except the final score check. -/
def preScore (W H : ℝ) (ks : KeyState) (dt : ℝ) (s : GameState) : GameState :=
  cpuPaddleStep W (playerPaddleStep (wallStep H (moveBall dt (cpuStep H dt (playerStep H ks dt s)))))

/-- `update(dt)`: the whole simulation step, blocks in source order. -/
def update (W H : ℝ) (ks : KeyState) (r rd dt : ℝ) (s : GameState) : GameState :=
  scoreStep W H r rd (preScore W H ks dt s)

/-- The `mousemove` handler: set the player paddle's top edge to the
pointer y minus half the paddle height, clamped to the field. -/
def mouseMove (H y : ℝ) (s : GameState) : GameState :=
  { s with playerY := clamp (y - PADDLE_HEIGHT / 2) 0 (H - PADDLE_HEIGHT) }

/-- A quiet mid-field test state on an 800 x 500 field: paddles centered
in bounds, ball at field center moving right. -/
def s0 : GameState :=
  { playerY := 200, playerDy := 0, cpuY := 200, ballX := 400, ballY := 250,
    ballVx := 6, ballVy := 0, ballSpeed := 6, scorePlayer := 0, scoreCpu := 0 }

/-- A test state whose ball has already crossed the left scoring margin
(`ball.x = -100`) and is otherwise at rest. -/
def s1 : GameState :=
  { playerY := 200, playerDy := 0, cpuY := 200, ballX := -100, ballY := 250,
    ballVx := 0, ballVy := 0, ballSpeed := 6, scorePlayer := 0, scoreCpu := 0 }

/-- A state whose ball rests exactly on the top wall (y = r = 8) and
moves away from it (vy = 5), as left behind by a prior top-wall
bounce. -/
def s2 : GameState :=
  { playerY := 200, playerDy := 0, cpuY := 200, ballX := 400, ballY := 8,
    ballVx := 0, ballVy := 5, ballSpeed := 6, scorePlayer := 0, scoreCpu := 0 }

/-- A state with the ball just in front of the player paddle and moving
left fast (vx = −20), so one dt = 1 tick displaces it by −200. -/
def s4 : GameState :=
  { playerY := 200, playerDy := 0, cpuY := 200, ballX := 92, ballY := 250,
    ballVx := -20, ballVy := 0, ballSpeed := 6, scorePlayer := 0, scoreCpu := 0 }

/-- No keys held. -/
def ks0 : KeyState := { up := false, down := false }

end Pong

namespace Pong

/-! ### Basic clamp lemmas -/

theorem le_clamp (v a b : ℝ) : a ≤ clamp v a b := le_max_left a _

theorem clamp_le (v a b : ℝ) (h : a ≤ b) : clamp v a b ≤ b :=
  max_le h (min_le_left b v)

theorem clamp_of_mem (v a b : ℝ) (h1 : a ≤ v) (h2 : v ≤ b) : clamp v a b = v := by
  unfold clamp
  rw [min_eq_right h2, max_eq_right h1]

theorem clamp_same (v a : ℝ) : clamp v a a = a :=
  max_eq_left (min_le_left a v)

/-! ### Field-preservation lemmas: which fields each block leaves alone -/

@[simp] theorem playerStep_cpuY (H : ℝ) (ks : KeyState) (dt : ℝ) (s : GameState) :
    (playerStep H ks dt s).cpuY = s.cpuY := rfl

@[simp] theorem playerStep_ballX (H : ℝ) (ks : KeyState) (dt : ℝ) (s : GameState) :
    (playerStep H ks dt s).ballX = s.ballX := rfl

@[simp] theorem playerStep_ballY (H : ℝ) (ks : KeyState) (dt : ℝ) (s : GameState) :
    (playerStep H ks dt s).ballY = s.ballY := rfl

@[simp] theorem playerStep_ballVx (H : ℝ) (ks : KeyState) (dt : ℝ) (s : GameState) :
    (playerStep H ks dt s).ballVx = s.ballVx := rfl

@[simp] theorem playerStep_ballVy (H : ℝ) (ks : KeyState) (dt : ℝ) (s : GameState) :
    (playerStep H ks dt s).ballVy = s.ballVy := rfl

@[simp] theorem playerStep_scorePlayer (H : ℝ) (ks : KeyState) (dt : ℝ) (s : GameState) :
    (playerStep H ks dt s).scorePlayer = s.scorePlayer := rfl

@[simp] theorem playerStep_scoreCpu (H : ℝ) (ks : KeyState) (dt : ℝ) (s : GameState) :
    (playerStep H ks dt s).scoreCpu = s.scoreCpu := rfl

@[simp] theorem playerStep_playerY (H : ℝ) (ks : KeyState) (dt : ℝ) (s : GameState) :
    (playerStep H ks dt s).playerY =
      clamp (s.playerY + (if ks.up then -PLAYER_SPEED else if ks.down then PLAYER_SPEED else 0) * dt)
        0 (H - PADDLE_HEIGHT) := rfl

@[simp] theorem cpuStep_playerY (H dt : ℝ) (s : GameState) :
    (cpuStep H dt s).playerY = s.playerY := rfl

@[simp] theorem cpuStep_playerDy (H dt : ℝ) (s : GameState) :
    (cpuStep H dt s).playerDy = s.playerDy := rfl

@[simp] theorem cpuStep_ballX (H dt : ℝ) (s : GameState) :
    (cpuStep H dt s).ballX = s.ballX := rfl

@[simp] theorem cpuStep_ballY (H dt : ℝ) (s : GameState) :
    (cpuStep H dt s).ballY = s.ballY := rfl

@[simp] theorem cpuStep_ballVx (H dt : ℝ) (s : GameState) :
    (cpuStep H dt s).ballVx = s.ballVx := rfl

@[simp] theorem cpuStep_ballVy (H dt : ℝ) (s : GameState) :
    (cpuStep H dt s).ballVy = s.ballVy := rfl

@[simp] theorem cpuStep_scorePlayer (H dt : ℝ) (s : GameState) :
    (cpuStep H dt s).scorePlayer = s.scorePlayer := rfl

@[simp] theorem cpuStep_scoreCpu (H dt : ℝ) (s : GameState) :
    (cpuStep H dt s).scoreCpu = s.scoreCpu := rfl

@[simp] theorem moveBall_playerY (dt : ℝ) (s : GameState) :
    (moveBall dt s).playerY = s.playerY := rfl

@[simp] theorem moveBall_cpuY (dt : ℝ) (s : GameState) :
    (moveBall dt s).cpuY = s.cpuY := rfl

@[simp] theorem moveBall_ballX (dt : ℝ) (s : GameState) :
    (moveBall dt s).ballX = s.ballX + s.ballVx * dt * 10 := rfl

@[simp] theorem moveBall_ballY (dt : ℝ) (s : GameState) :
    (moveBall dt s).ballY = s.ballY + s.ballVy * dt * 10 := rfl

@[simp] theorem moveBall_ballVx (dt : ℝ) (s : GameState) :
    (moveBall dt s).ballVx = s.ballVx := rfl

@[simp] theorem moveBall_ballVy (dt : ℝ) (s : GameState) :
    (moveBall dt s).ballVy = s.ballVy := rfl

@[simp] theorem moveBall_scorePlayer (dt : ℝ) (s : GameState) :
    (moveBall dt s).scorePlayer = s.scorePlayer := rfl

@[simp] theorem moveBall_scoreCpu (dt : ℝ) (s : GameState) :
    (moveBall dt s).scoreCpu = s.scoreCpu := rfl

@[simp] theorem wallStep_playerY (H : ℝ) (s : GameState) :
    (wallStep H s).playerY = s.playerY := by
  unfold wallStep; split_ifs <;> rfl

@[simp] theorem wallStep_cpuY (H : ℝ) (s : GameState) :
    (wallStep H s).cpuY = s.cpuY := by
  unfold wallStep; split_ifs <;> rfl

@[simp] theorem wallStep_ballX (H : ℝ) (s : GameState) :
    (wallStep H s).ballX = s.ballX := by
  unfold wallStep; split_ifs <;> rfl

@[simp] theorem wallStep_ballVx (H : ℝ) (s : GameState) :
    (wallStep H s).ballVx = s.ballVx := by
  unfold wallStep; split_ifs <;> rfl

@[simp] theorem wallStep_scorePlayer (H : ℝ) (s : GameState) :
    (wallStep H s).scorePlayer = s.scorePlayer := by
  unfold wallStep; split_ifs <;> rfl

@[simp] theorem wallStep_scoreCpu (H : ℝ) (s : GameState) :
    (wallStep H s).scoreCpu = s.scoreCpu := by
  unfold wallStep; split_ifs <;> rfl

@[simp] theorem playerPaddleStep_playerY (s : GameState) :
    (playerPaddleStep s).playerY = s.playerY := by
  unfold playerPaddleStep; split_ifs <;> rfl

@[simp] theorem playerPaddleStep_cpuY (s : GameState) :
    (playerPaddleStep s).cpuY = s.cpuY := by
  unfold playerPaddleStep; split_ifs <;> rfl

@[simp] theorem playerPaddleStep_ballY (s : GameState) :
    (playerPaddleStep s).ballY = s.ballY := by
  unfold playerPaddleStep; split_ifs <;> rfl

@[simp] theorem playerPaddleStep_scorePlayer (s : GameState) :
    (playerPaddleStep s).scorePlayer = s.scorePlayer := by
  unfold playerPaddleStep; split_ifs <;> rfl

@[simp] theorem playerPaddleStep_scoreCpu (s : GameState) :
    (playerPaddleStep s).scoreCpu = s.scoreCpu := by
  unfold playerPaddleStep; split_ifs <;> rfl

@[simp] theorem cpuPaddleStep_playerY (W : ℝ) (s : GameState) :
    (cpuPaddleStep W s).playerY = s.playerY := by
  unfold cpuPaddleStep; split_ifs <;> rfl

@[simp] theorem cpuPaddleStep_cpuY (W : ℝ) (s : GameState) :
    (cpuPaddleStep W s).cpuY = s.cpuY := by
  unfold cpuPaddleStep; split_ifs <;> rfl

@[simp] theorem cpuPaddleStep_ballY (W : ℝ) (s : GameState) :
    (cpuPaddleStep W s).ballY = s.ballY := by
  unfold cpuPaddleStep; split_ifs <;> rfl

@[simp] theorem cpuPaddleStep_scorePlayer (W : ℝ) (s : GameState) :
    (cpuPaddleStep W s).scorePlayer = s.scorePlayer := by
  unfold cpuPaddleStep; split_ifs <;> rfl

@[simp] theorem cpuPaddleStep_scoreCpu (W : ℝ) (s : GameState) :
    (cpuPaddleStep W s).scoreCpu = s.scoreCpu := by
  unfold cpuPaddleStep; split_ifs <;> rfl

@[simp] theorem resetBall_playerY (W H r rd : ℝ) (d : ServeDir) (s : GameState) :
    (resetBall W H r rd d s).playerY = s.playerY := rfl

@[simp] theorem resetBall_cpuY (W H r rd : ℝ) (d : ServeDir) (s : GameState) :
    (resetBall W H r rd d s).cpuY = s.cpuY := rfl

@[simp] theorem resetBall_scorePlayer (W H r rd : ℝ) (d : ServeDir) (s : GameState) :
    (resetBall W H r rd d s).scorePlayer = s.scorePlayer := rfl

@[simp] theorem resetBall_scoreCpu (W H r rd : ℝ) (d : ServeDir) (s : GameState) :
    (resetBall W H r rd d s).scoreCpu = s.scoreCpu := rfl

@[simp] theorem resetBall_ballX (W H r rd : ℝ) (d : ServeDir) (s : GameState) :
    (resetBall W H r rd d s).ballX = W / 2 := rfl

@[simp] theorem resetBall_ballY (W H r rd : ℝ) (d : ServeDir) (s : GameState) :
    (resetBall W H r rd d s).ballY = H / 2 := rfl

@[simp] theorem scoreStep_playerY (W H r rd : ℝ) (s : GameState) :
    (scoreStep W H r rd s).playerY = s.playerY := by
  unfold scoreStep; split_ifs <;> rfl

@[simp] theorem scoreStep_cpuY (W H r rd : ℝ) (s : GameState) :
    (scoreStep W H r rd s).cpuY = s.cpuY := by
  unfold scoreStep; split_ifs <;> rfl

/-- The blocks before the score check never touch either score counter. -/
theorem preScore_scorePlayer (W H : ℝ) (ks : KeyState) (dt : ℝ) (s : GameState) :
    (preScore W H ks dt s).scorePlayer = s.scorePlayer := by
  unfold preScore; simp

/-- The blocks before the score check never touch either score counter. -/
theorem preScore_scoreCpu (W H : ℝ) (ks : KeyState) (dt : ℝ) (s : GameState) :
    (preScore W H ks dt s).scoreCpu = s.scoreCpu := by
  unfold preScore; simp

end Pong

namespace Pong

@[simp] theorem resetBall_ballVx (W H r rd : ℝ) (d : ServeDir) (s : GameState) :
    (resetBall W H r rd d s).ballVx
      = d.sign rd * 6 * Real.cos (r * (Real.pi / 3) - Real.pi / 6) := rfl

@[simp] theorem resetBall_ballVy (W H r rd : ℝ) (d : ServeDir) (s : GameState) :
    (resetBall W H r rd d s).ballVy
      = 6 * Real.sin (r * (Real.pi / 3) - Real.pi / 6) := rfl

/-- The serve direction sign is always `1` or `-1`. -/
theorem ServeDir.sign_cases (d : ServeDir) (rd : ℝ) : d.sign rd = 1 ∨ d.sign rd = -1 := by
  cases d with
  | left => exact Or.inr rfl
  | right => exact Or.inl rfl
  | rand =>
    unfold ServeDir.sign
    split_ifs
    · exact Or.inr rfl
    · exact Or.inl rfl

theorem ServeDir.sign_sq (d : ServeDir) (rd : ℝ) : d.sign rd ^ 2 = 1 := by
  rcases d.sign_cases rd with h | h <;> rw [h] <;> norm_num

theorem ServeDir.abs_sign (d : ServeDir) (rd : ℝ) : |d.sign rd| = 1 := by
  rcases d.sign_cases rd with h | h <;> rw [h] <;> norm_num

/-- Bounds on the serve angle `r * π/3 - π/6` drawn from a random
`r ∈ [0, 1)`, and positivity of its cosine. -/
theorem serveAngle_bounds (r : ℝ) (hr0 : 0 ≤ r) (hr1 : r < 1) :
    -(Real.pi / 6) ≤ r * (Real.pi / 3) - Real.pi / 6 ∧
    r * (Real.pi / 3) - Real.pi / 6 < Real.pi / 6 ∧
    0 < Real.cos (r * (Real.pi / 3) - Real.pi / 6) := by
  have hpi := Real.pi_pos
  have h1 : 0 ≤ r * (Real.pi / 3) := mul_nonneg hr0 (by positivity)
  have h2 : r * (Real.pi / 3) < 1 * (Real.pi / 3) :=
    mul_lt_mul_of_pos_right hr1 (by positivity)
  refine ⟨by linarith, by linarith, ?_⟩
  exact Real.cos_pos_of_mem_Ioo ⟨by linarith, by linarith⟩

end Pong

namespace Pong

@[simp] theorem bounceVel_fst (relativeY vx vy sign : ℝ) :
    (bounceVel relativeY vx vy sign).1
      = sign * |Real.cos (relativeY * MAX_BOUNCE_ANGLE) * (Real.sqrt (vx ^ 2 + vy ^ 2) + 0.2)| := rfl

@[simp] theorem bounceVel_snd (relativeY vx vy sign : ℝ) :
    (bounceVel relativeY vx vy sign).2
      = Real.sin (relativeY * MAX_BOUNCE_ANGLE) * (Real.sqrt (vx ^ 2 + vy ^ 2) + 0.2) := rfl

/-- Claim C9 (confirmed): every serve, for any injected random `r ∈ [0,1)`
and any direction argument, produces a velocity of scalar magnitude
exactly 6 (the base speed) whose angle from horizontal is within ±30°
(π/6); serving `'left'` yields `vx < 0` and `'right'` yields `vx > 0`. -/
theorem serve_props (W H r rd : ℝ) (d : ServeDir) (s : GameState)
    (hr0 : 0 ≤ r) (hr1 : r < 1) :
    (resetBall W H r rd d s).ballVx ^ 2 + (resetBall W H r rd d s).ballVy ^ 2 = 36 ∧
    Real.sqrt ((resetBall W H r rd d s).ballVx ^ 2 + (resetBall W H r rd d s).ballVy ^ 2) = 6 ∧
    |Real.arctan ((resetBall W H r rd d s).ballVy / |(resetBall W H r rd d s).ballVx|)|
      ≤ Real.pi / 6 ∧
    (d = ServeDir.left → (resetBall W H r rd d s).ballVx < 0) ∧
    (d = ServeDir.right → 0 < (resetBall W H r rd d s).ballVx) := by
  obtain ⟨ha1, ha2, hcos⟩ := serveAngle_bounds r hr0 hr1
  have hpi := Real.pi_pos
  set θ := r * (Real.pi / 3) - Real.pi / 6 with hθ
  have hθgt : -(Real.pi / 2) < θ := by linarith
  have hθlt : θ < Real.pi / 2 := by linarith
  have hs2 := d.sign_sq rd
  have habs := d.abs_sign rd
  have hmag : (resetBall W H r rd d s).ballVx ^ 2 + (resetBall W H r rd d s).ballVy ^ 2 = 36 := by
    rw [resetBall_ballVx, resetBall_ballVy, ← hθ]
    have hsc := Real.sin_sq_add_cos_sq θ
    nlinarith [hs2, hsc]
  refine ⟨hmag, ?_, ?_, ?_, ?_⟩
  · rw [hmag]
    rw [show (36 : ℝ) = 6 ^ 2 by norm_num, Real.sqrt_sq (by norm_num : (0:ℝ) ≤ 6)]
  · rw [resetBall_ballVx, resetBall_ballVy, ← hθ]
    have hvx : |d.sign rd * 6 * Real.cos θ| = 6 * Real.cos θ := by
      rw [abs_mul, abs_mul, habs, one_mul, abs_of_pos hcos]
      norm_num
    rw [hvx]
    have hdiv : 6 * Real.sin θ / (6 * Real.cos θ) = Real.tan θ := by
      rw [Real.tan_eq_sin_div_cos, mul_div_mul_left _ _ (by norm_num : (6:ℝ) ≠ 0)]
    rw [hdiv, Real.arctan_tan hθgt hθlt, abs_le]
    constructor <;> linarith
  · intro hd
    subst hd
    rw [resetBall_ballVx, ← hθ]
    show ServeDir.left.sign rd * 6 * Real.cos θ < 0
    unfold ServeDir.sign
    nlinarith
  · intro hd
    subst hd
    rw [resetBall_ballVx, ← hθ]
    show (0:ℝ) < ServeDir.right.sign rd * 6 * Real.cos θ
    unfold ServeDir.sign
    nlinarith

/-- Witness for C9 at `r = 1/2`, serving right. -/
theorem serve_props_witness :
    (0:ℝ) ≤ 1/2 ∧ (1/2:ℝ) < 1 ∧
    ((resetBall 800 500 (1/2) 0 ServeDir.right s0).ballVx ^ 2
        + (resetBall 800 500 (1/2) 0 ServeDir.right s0).ballVy ^ 2 = 36 ∧
      Real.sqrt ((resetBall 800 500 (1/2) 0 ServeDir.right s0).ballVx ^ 2
        + (resetBall 800 500 (1/2) 0 ServeDir.right s0).ballVy ^ 2) = 6 ∧
      |Real.arctan ((resetBall 800 500 (1/2) 0 ServeDir.right s0).ballVy
        / |(resetBall 800 500 (1/2) 0 ServeDir.right s0).ballVx|)| ≤ Real.pi / 6 ∧
      (ServeDir.right = ServeDir.left →
        (resetBall 800 500 (1/2) 0 ServeDir.right s0).ballVx < 0) ∧
      (ServeDir.right = ServeDir.right →
        0 < (resetBall 800 500 (1/2) 0 ServeDir.right s0).ballVx)) :=
  ⟨by norm_num, by norm_num,
    serve_props 800 500 (1/2) 0 ServeDir.right s0 (by norm_num) (by norm_num)⟩

/-- Claim C5 (confirmed): on every paddle bounce (either sign), with
incoming speed `S = sqrt(vx² + vy²)`, the outgoing velocity satisfies
`vx'² + vy'² = (S + 0.2)²`, its scalar speed is exactly `S + 0.2`, and
the speed does not decrease across the bounce. -/
theorem bounce_speed_escalation (relativeY vx vy sign : ℝ) (hsign : sign = 1 ∨ sign = -1) :
    (bounceVel relativeY vx vy sign).1 ^ 2 + (bounceVel relativeY vx vy sign).2 ^ 2
      = (Real.sqrt (vx ^ 2 + vy ^ 2) + 0.2) ^ 2 ∧
    Real.sqrt ((bounceVel relativeY vx vy sign).1 ^ 2 + (bounceVel relativeY vx vy sign).2 ^ 2)
      = Real.sqrt (vx ^ 2 + vy ^ 2) + 0.2 ∧
    Real.sqrt (vx ^ 2 + vy ^ 2)
      ≤ Real.sqrt ((bounceVel relativeY vx vy sign).1 ^ 2 + (bounceVel relativeY vx vy sign).2 ^ 2) := by
  have hs2 : sign ^ 2 = 1 := by rcases hsign with h | h <;> rw [h] <;> norm_num
  set θ := relativeY * MAX_BOUNCE_ANGLE with hθdef
  set sp := Real.sqrt (vx ^ 2 + vy ^ 2) + 0.2 with hspdef
  have hsp0 : 0 ≤ sp := by
    rw [hspdef]
    have := Real.sqrt_nonneg (vx ^ 2 + vy ^ 2)
    norm_num
    linarith
  have h1 : (bounceVel relativeY vx vy sign).1 ^ 2 + (bounceVel relativeY vx vy sign).2 ^ 2
      = sp ^ 2 := by
    rw [bounceVel_fst, bounceVel_snd, ← hθdef, ← hspdef]
    have hsc := Real.sin_sq_add_cos_sq θ
    have hab := sq_abs (Real.cos θ * sp)
    nlinarith [hs2, hsc, hab]
  refine ⟨by rw [h1], ?_, ?_⟩
  · rw [h1, Real.sqrt_sq hsp0]
  · rw [h1, Real.sqrt_sq hsp0, hspdef]
    have := Real.sqrt_nonneg (vx ^ 2 + vy ^ 2)
    norm_num

/-- Witness for C5 at `relativeY = 0`, incoming velocity `(3, 4)`,
player-side sign. -/
theorem bounce_speed_escalation_witness :
    ((1:ℝ) = 1 ∨ (1:ℝ) = -1) ∧
    ((bounceVel 0 3 4 1).1 ^ 2 + (bounceVel 0 3 4 1).2 ^ 2
        = (Real.sqrt (3 ^ 2 + 4 ^ 2) + 0.2) ^ 2 ∧
      Real.sqrt ((bounceVel 0 3 4 1).1 ^ 2 + (bounceVel 0 3 4 1).2 ^ 2)
        = Real.sqrt (3 ^ 2 + 4 ^ 2) + 0.2 ∧
      Real.sqrt (3 ^ 2 + 4 ^ 2)
        ≤ Real.sqrt ((bounceVel 0 3 4 1).1 ^ 2 + (bounceVel 0 3 4 1).2 ^ 2)) :=
  ⟨Or.inl rfl, bounce_speed_escalation 0 3 4 1 (Or.inl rfl)⟩

/-- Claim C6 (confirmed): for every paddle bounce with `relativeY ∈ [-1, 1]`
(either sign), the outgoing velocity's angle from horizontal,
`atan2(vy, |vx|)`, has magnitude at most 75° = 5π/12. -/
theorem bounce_angle_bound (relativeY vx vy sign : ℝ) (hrel : |relativeY| ≤ 1)
    (hsign : sign = 1 ∨ sign = -1) :
    |Real.arctan ((bounceVel relativeY vx vy sign).2 / |(bounceVel relativeY vx vy sign).1|)|
      ≤ 5 * Real.pi / 12 := by
  have hpi := Real.pi_pos
  have habsgn : |sign| = 1 := by rcases hsign with h | h <;> rw [h] <;> norm_num
  set θ := relativeY * MAX_BOUNCE_ANGLE with hθdef
  set sp := Real.sqrt (vx ^ 2 + vy ^ 2) + 0.2 with hspdef
  have hsp0 : 0 < sp := by
    rw [hspdef]
    have := Real.sqrt_nonneg (vx ^ 2 + vy ^ 2)
    norm_num
    linarith
  have hθabs : |θ| ≤ 5 * Real.pi / 12 := by
    rw [hθdef, abs_mul, show MAX_BOUNCE_ANGLE = 5 * Real.pi / 12 from rfl,
      abs_of_pos (by positivity : (0:ℝ) < 5 * Real.pi / 12)]
    calc |relativeY| * (5 * Real.pi / 12) ≤ 1 * (5 * Real.pi / 12) :=
          mul_le_mul_of_nonneg_right hrel (by positivity)
      _ = 5 * Real.pi / 12 := one_mul _
  obtain ⟨hθ1, hθ2⟩ := abs_le.mp hθabs
  have hθgt : -(Real.pi / 2) < θ := by linarith
  have hθlt : θ < Real.pi / 2 := by linarith
  have hcos : 0 < Real.cos θ := Real.cos_pos_of_mem_Ioo ⟨hθgt, hθlt⟩
  have habs1 : |(bounceVel relativeY vx vy sign).1| = Real.cos θ * sp := by
    rw [bounceVel_fst, ← hθdef, ← hspdef, abs_mul, habsgn, one_mul, abs_abs,
      abs_of_pos (mul_pos hcos hsp0)]
  rw [habs1, bounceVel_snd, ← hθdef, ← hspdef, mul_comm (Real.sin θ) sp,
    mul_comm (Real.cos θ) sp, mul_div_mul_left _ _ (ne_of_gt hsp0),
    ← Real.tan_eq_sin_div_cos, Real.arctan_tan hθgt hθlt]
  exact hθabs

/-- Witness for C6 at `relativeY = 0`, incoming velocity `(3, 4)`,
player-side sign. -/
theorem bounce_angle_bound_witness :
    |(0:ℝ)| ≤ 1 ∧ ((1:ℝ) = 1 ∨ (1:ℝ) = -1) ∧
    |Real.arctan ((bounceVel 0 3 4 1).2 / |(bounceVel 0 3 4 1).1|)| ≤ 5 * Real.pi / 12 :=
  ⟨by norm_num, Or.inl rfl, bounce_angle_bound 0 3 4 1 (by norm_num) (Or.inl rfl)⟩

end Pong

namespace Pong

/-- Claim C7 (confirmed): after every simulation tick, and after every
pointer event, both paddles' y coordinates lie within
`[0, fieldHeight − paddleHeight]` (assuming the paddle fits the field). -/
theorem paddle_bounds_invariant (W H : ℝ) (ks : KeyState) (r rd dt y : ℝ) (s : GameState)
    (hH : PADDLE_HEIGHT ≤ H) :
    0 ≤ (update W H ks r rd dt s).playerY ∧
    (update W H ks r rd dt s).playerY ≤ H - PADDLE_HEIGHT ∧
    0 ≤ (update W H ks r rd dt s).cpuY ∧
    (update W H ks r rd dt s).cpuY ≤ H - PADDLE_HEIGHT ∧
    0 ≤ (mouseMove H y s).playerY ∧
    (mouseMove H y s).playerY ≤ H - PADDLE_HEIGHT := by
  have h0 : (0:ℝ) ≤ H - PADDLE_HEIGHT := by linarith
  have hup : (update W H ks r rd dt s).playerY = (playerStep H ks dt s).playerY := by
    unfold update preScore
    simp only [scoreStep_playerY, cpuPaddleStep_playerY, playerPaddleStep_playerY,
      wallStep_playerY, moveBall_playerY, cpuStep_playerY]
  have huc : (update W H ks r rd dt s).cpuY = (cpuStep H dt (playerStep H ks dt s)).cpuY := by
    unfold update preScore
    simp only [scoreStep_cpuY, cpuPaddleStep_cpuY, playerPaddleStep_cpuY,
      wallStep_cpuY, moveBall_cpuY]
  refine ⟨?_, ?_, ?_, ?_, ?_, ?_⟩
  · rw [hup]
    unfold playerStep
    exact le_clamp _ _ _
  · rw [hup]
    unfold playerStep
    exact clamp_le _ _ _ h0
  · rw [huc]
    unfold cpuStep
    exact le_clamp _ _ _
  · rw [huc]
    unfold cpuStep
    exact clamp_le _ _ _ h0
  · unfold mouseMove
    exact le_clamp _ _ _
  · unfold mouseMove
    exact clamp_le _ _ _ h0

/-- Witness for C7 on the 800 x 500 field with a keyboard-driven tick and
a pointer sample at y = 100. -/
theorem paddle_bounds_invariant_witness :
    PADDLE_HEIGHT ≤ (500:ℝ) ∧
    (0 ≤ (update 800 500 ks0 (1/2) 0 1 s0).playerY ∧
      (update 800 500 ks0 (1/2) 0 1 s0).playerY ≤ 500 - PADDLE_HEIGHT ∧
      0 ≤ (update 800 500 ks0 (1/2) 0 1 s0).cpuY ∧
      (update 800 500 ks0 (1/2) 0 1 s0).cpuY ≤ 500 - PADDLE_HEIGHT ∧
      0 ≤ (mouseMove 500 100 s0).playerY ∧
      (mouseMove 500 100 s0).playerY ≤ 500 - PADDLE_HEIGHT) :=
  ⟨by norm_num [PADDLE_HEIGHT],
    paddle_bounds_invariant 800 500 ks0 (1/2) 0 1 100 s0 (by norm_num [PADDLE_HEIGHT])⟩

end Pong

namespace Pong

/-- On the state `s1` (ball already past the left margin, everything else
at rest) a `dt = 0` tick changes nothing before the score check. -/
theorem preScore_s1 : preScore 800 500 ks0 0 s1 = s1 := by
  have h1 : playerStep 500 ks0 0 s1 = s1 := by
    norm_num [playerStep, ks0, s1, clamp, PLAYER_SPEED, PADDLE_HEIGHT, min_def, max_def]
  have h2 : cpuStep 500 0 s1 = s1 := by
    norm_num [cpuStep, s1, clamp, CPU_SPEED, PADDLE_HEIGHT, min_def, max_def]
  have h3 : moveBall 0 s1 = s1 := by
    norm_num [moveBall, s1]
  have h4 : wallStep 500 s1 = s1 := by
    norm_num [wallStep, s1, BALL_R]
  have h5 : playerPaddleStep s1 = s1 := by
    norm_num [playerPaddleStep, s1, playerX, PADDING, PADDLE_WIDTH, PADDLE_HEIGHT, BALL_R]
  have h6 : cpuPaddleStep 800 s1 = s1 := by
    norm_num [cpuPaddleStep, s1, cpuX, PADDING, PADDLE_WIDTH, PADDLE_HEIGHT, BALL_R]
  unfold preScore
  rw [h1, h2, h3, h4, h5, h6]

/-- Claim C8 (confirmed): in any tick whose ball x ends below −50 before
the score check, the CPU score increments by exactly 1 (player score
unchanged) and the ball is recentered; symmetrically past `W + 50` for
the player; and at most one score fires per tick. -/
theorem score_transition (W H : ℝ) (ks : KeyState) (r rd dt : ℝ) (s : GameState)
    (hW : 0 ≤ W) :
    ((preScore W H ks dt s).ballX < -50 →
      (update W H ks r rd dt s).scoreCpu = s.scoreCpu + 1 ∧
      (update W H ks r rd dt s).scorePlayer = s.scorePlayer ∧
      (update W H ks r rd dt s).ballX = W / 2 ∧
      (update W H ks r rd dt s).ballY = H / 2) ∧
    (W + 50 < (preScore W H ks dt s).ballX →
      (update W H ks r rd dt s).scorePlayer = s.scorePlayer + 1 ∧
      (update W H ks r rd dt s).scoreCpu = s.scoreCpu ∧
      (update W H ks r rd dt s).ballX = W / 2 ∧
      (update W H ks r rd dt s).ballY = H / 2) ∧
    (update W H ks r rd dt s).scorePlayer + (update W H ks r rd dt s).scoreCpu
      ≤ s.scorePlayer + s.scoreCpu + 1 := by
  have hsp := preScore_scorePlayer W H ks dt s
  have hsc := preScore_scoreCpu W H ks dt s
  set t := preScore W H ks dt s with ht
  have hu : update W H ks r rd dt s = scoreStep W H r rd t := rfl
  refine ⟨?_, ?_, ?_⟩
  · intro h
    rw [hu]
    unfold scoreStep
    rw [if_pos h]
    refine ⟨?_, ?_, ?_, ?_⟩ <;>
      simp [resetBall_scoreCpu, resetBall_scorePlayer, resetBall_ballX, resetBall_ballY, hsc, hsp]
  · intro h
    have hnot : ¬ t.ballX < -50 := not_lt.mpr (by linarith)
    rw [hu]
    unfold scoreStep
    rw [if_neg hnot, if_pos h]
    refine ⟨?_, ?_, ?_, ?_⟩ <;>
      simp [resetBall_scoreCpu, resetBall_scorePlayer, resetBall_ballX, resetBall_ballY, hsc, hsp]
  · rw [hu]
    unfold scoreStep
    split_ifs with h1 h2
    · simp only [resetBall_scoreCpu, resetBall_scorePlayer, hsc, hsp]
      omega
    · simp only [resetBall_scoreCpu, resetBall_scorePlayer, hsc, hsp]
      omega
    · simp [hsc, hsp]

/-- Witness for C8 on state `s1`, whose ball sits at x = −100. -/
theorem score_transition_witness :
    (0:ℝ) ≤ 800 ∧ (preScore 800 500 ks0 0 s1).ballX < -50 ∧
    ((update 800 500 ks0 (1/2) 0 0 s1).scoreCpu = s1.scoreCpu + 1 ∧
      (update 800 500 ks0 (1/2) 0 0 s1).scorePlayer = s1.scorePlayer ∧
      (update 800 500 ks0 (1/2) 0 0 s1).ballX = 800 / 2 ∧
      (update 800 500 ks0 (1/2) 0 0 s1).ballY = 500 / 2) := by
  have hx : (preScore 800 500 ks0 0 s1).ballX < -50 := by
    rw [preScore_s1]
    norm_num [s1]
  obtain ⟨h1, -, -⟩ := score_transition 800 500 ks0 (1/2) 0 0 s1 (by norm_num)
  exact ⟨by norm_num, hx, h1 hx⟩

end Pong

namespace Pong

/-- Claim C1 counterexample: on a tick in which the ball exits left
(x = −100 < −50) the CPU scores, yet the new serve's horizontal velocity
is positive (toward the CPU, the scorer), not negative as claimed. -/
theorem serve_direction_cex :
    (update 800 500 ks0 (1/2) 0 0 s1).scoreCpu = s1.scoreCpu + 1 ∧
    0 < (update 800 500 ks0 (1/2) 0 0 s1).ballVx ∧
    ¬ (update 800 500 ks0 (1/2) 0 0 s1).ballVx < 0 := by
  have hu : update 800 500 ks0 (1/2) 0 0 s1
      = resetBall 800 500 (1/2) 0 .right { s1 with scoreCpu := s1.scoreCpu + 1 } := by
    unfold update
    rw [preScore_s1]
    norm_num [scoreStep, s1]
  have hcos : 0 < Real.cos ((1/2:ℝ) * (Real.pi / 3) - Real.pi / 6) :=
    (serveAngle_bounds (1/2) (by norm_num) (by norm_num)).2.2
  have hpos : 0 < (update 800 500 ks0 (1/2) 0 0 s1).ballVx := by
    rw [hu, resetBall_ballVx]
    show (0:ℝ) < ServeDir.right.sign 0 * 6 * Real.cos _
    unfold ServeDir.sign
    nlinarith
  refine ⟨?_, hpos, not_lt.mpr (le_of_lt hpos)⟩
  rw [hu, resetBall_scoreCpu]

/-- Claim C1 (amended): the serve after a score is directed toward the
SCORER, not the scored-against side: after the CPU scores (ball exits
left) the new serve has `vx > 0` (toward the CPU), and after the player
scores (ball exits right) it has `vx < 0` (toward the player). -/
theorem serve_toward_scorer (W H : ℝ) (ks : KeyState) (r rd dt : ℝ) (s : GameState)
    (hW : 0 ≤ W) (hr0 : 0 ≤ r) (hr1 : r < 1) :
    ((preScore W H ks dt s).ballX < -50 →
      (update W H ks r rd dt s).scoreCpu = s.scoreCpu + 1 ∧
      0 < (update W H ks r rd dt s).ballVx) ∧
    (W + 50 < (preScore W H ks dt s).ballX →
      (update W H ks r rd dt s).scorePlayer = s.scorePlayer + 1 ∧
      (update W H ks r rd dt s).ballVx < 0) := by
  obtain ⟨-, -, hcos⟩ := serveAngle_bounds r hr0 hr1
  have hsc := preScore_scoreCpu W H ks dt s
  have hsp := preScore_scorePlayer W H ks dt s
  set t := preScore W H ks dt s with ht
  have hu : update W H ks r rd dt s = scoreStep W H r rd t := rfl
  constructor
  · intro h
    rw [hu]
    unfold scoreStep
    rw [if_pos h]
    constructor
    · simp [resetBall_scoreCpu, hsc]
    · rw [resetBall_ballVx]
      show (0:ℝ) < ServeDir.right.sign rd * 6 * Real.cos _
      unfold ServeDir.sign
      nlinarith
  · intro h
    have hnot : ¬ t.ballX < -50 := not_lt.mpr (by linarith)
    rw [hu]
    unfold scoreStep
    rw [if_neg hnot, if_pos h]
    constructor
    · simp [resetBall_scorePlayer, hsp]
    · rw [resetBall_ballVx]
      show ServeDir.left.sign rd * 6 * Real.cos _ < 0
      unfold ServeDir.sign
      nlinarith

/-- Witness for the amended C1 on state `s1` (ball at x = −100). -/
theorem serve_toward_scorer_witness :
    (0:ℝ) ≤ 800 ∧ (0:ℝ) ≤ 1/2 ∧ (1/2:ℝ) < 1 ∧
    (preScore 800 500 ks0 0 s1).ballX < -50 ∧
    ((update 800 500 ks0 (1/2) 0 0 s1).scoreCpu = s1.scoreCpu + 1 ∧
      0 < (update 800 500 ks0 (1/2) 0 0 s1).ballVx) := by
  have hx : (preScore 800 500 ks0 0 s1).ballX < -50 := by
    rw [preScore_s1]
    norm_num [s1]
  obtain ⟨h1, -⟩ :=
    serve_toward_scorer 800 500 ks0 (1/2) 0 0 s1 (by norm_num) (by norm_num) (by norm_num)
  exact ⟨by norm_num, by norm_num, by norm_num, hx, h1 hx⟩

end Pong

namespace Pong

/-- A dt = 0 tick on `s0` changes nothing before the score check. -/
theorem preScore_s0_zero : preScore 800 500 ks0 0 s0 = s0 := by
  have h1 : playerStep 500 ks0 0 s0 = s0 := by
    norm_num [playerStep, ks0, s0, clamp, PLAYER_SPEED, PADDLE_HEIGHT, min_def, max_def]
  have h2 : cpuStep 500 0 s0 = s0 := by
    norm_num [cpuStep, s0, clamp, CPU_SPEED, PADDLE_HEIGHT, min_def, max_def]
  have h3 : moveBall 0 s0 = s0 := by
    norm_num [moveBall, s0]
  have h4 : wallStep 500 s0 = s0 := by
    norm_num [wallStep, s0, BALL_R]
  have h5 : playerPaddleStep s0 = s0 := by
    norm_num [playerPaddleStep, s0, playerX, PADDING, PADDLE_WIDTH, PADDLE_HEIGHT, BALL_R]
  have h6 : cpuPaddleStep 800 s0 = s0 := by
    norm_num [cpuPaddleStep, s0, cpuX, PADDING, PADDLE_WIDTH, PADDLE_HEIGHT, BALL_R]
  unfold preScore
  rw [h1, h2, h3, h4, h5, h6]

/-- A dt = 0 tick on `s0` is a no-op. -/
theorem update_zero_s0 : update 800 500 ks0 (1/2) 0 0 s0 = s0 := by
  unfold update
  rw [preScore_s0_zero]
  norm_num [scoreStep, s0]

/-- Claim C3 counterexample: a tick with dt = −1 on a quiet state moves
the ball backward along its velocity (x: 400 → 340), while the dt = 0
tick leaves it at 400 — so a negative-dt step is not a zero-motion
tick. -/
theorem negative_dt_not_zero_motion_cex :
    (update 800 500 ks0 (1/2) 0 (-1) s0).ballX = 340 ∧
    (update 800 500 ks0 (1/2) 0 0 s0).ballX = 400 ∧
    update 800 500 ks0 (1/2) 0 (-1) s0 ≠ update 800 500 ks0 (1/2) 0 0 s0 := by
  have e1 : playerStep 500 ks0 (-1) s0 = s0 := by
    norm_num [playerStep, ks0, s0, clamp, PLAYER_SPEED, PADDLE_HEIGHT, min_def, max_def]
  have e2 : cpuStep 500 (-1) s0 = { s0 with cpuY := 250 } := by
    norm_num [cpuStep, s0, clamp, CPU_SPEED, PADDLE_HEIGHT, min_def, max_def]
  have e3 : moveBall (-1) { s0 with cpuY := 250 } = { s0 with cpuY := 250, ballX := 340 } := by
    norm_num [moveBall, s0]
  have e4 : wallStep 500 { s0 with cpuY := 250, ballX := 340 }
      = { s0 with cpuY := 250, ballX := 340 } := by
    norm_num [wallStep, s0, BALL_R]
  have e5 : playerPaddleStep { s0 with cpuY := 250, ballX := 340 }
      = { s0 with cpuY := 250, ballX := 340 } := by
    norm_num [playerPaddleStep, s0, playerX, PADDING, PADDLE_WIDTH, PADDLE_HEIGHT, BALL_R]
  have e6 : cpuPaddleStep 800 { s0 with cpuY := 250, ballX := 340 }
      = { s0 with cpuY := 250, ballX := 340 } := by
    norm_num [cpuPaddleStep, s0, cpuX, PADDING, PADDLE_WIDTH, PADDLE_HEIGHT, BALL_R]
  have eneg : update 800 500 ks0 (1/2) 0 (-1) s0 = { s0 with cpuY := 250, ballX := 340 } := by
    unfold update preScore
    rw [e1, e2, e3, e4, e5, e6]
    norm_num [scoreStep, s0]
  refine ⟨by rw [eneg], by rw [update_zero_s0]; norm_num [s0], ?_⟩
  intro h
  have := congrArg GameState.ballX h
  rw [eneg, update_zero_s0] at this
  norm_num [s0] at this

/-- Claim C3 (amended): negative elapsed time is NOT clamped: the step
integrates positions linearly with the signed dt (whenever the moved
ball triggers no paddle or score branch, its x ends at
`x + vx·dt·10`), so with dt < 0 and vx > 0 the ball moves backward; the
step is not equivalent to calling it with elapsed = 0. -/
theorem negative_dt_integrates (W H : ℝ) (ks : KeyState) (r rd dt : ℝ) (s : GameState)
    (hpp : ¬(s.ballX + s.ballVx * dt * 10 - BALL_R ≤ playerX + PADDLE_WIDTH ∧
        playerX ≤ s.ballX + s.ballVx * dt * 10 - BALL_R))
    (hcp : ¬(cpuX W ≤ s.ballX + s.ballVx * dt * 10 + BALL_R ∧
        s.ballX + s.ballVx * dt * 10 + BALL_R ≤ cpuX W + PADDLE_WIDTH))
    (hs1 : -50 ≤ s.ballX + s.ballVx * dt * 10)
    (hs2 : s.ballX + s.ballVx * dt * 10 ≤ W + 50) :
    (update W H ks r rd dt s).ballX = s.ballX + s.ballVx * dt * 10 ∧
    (dt < 0 → 0 < s.ballVx → (update W H ks r rd dt s).ballX < s.ballX) := by
  set t4 := wallStep H (moveBall dt (cpuStep H dt (playerStep H ks dt s))) with ht4
  have h3x : t4.ballX = s.ballX + s.ballVx * dt * 10 := by
    rw [ht4]
    simp
  have h5 : playerPaddleStep t4 = t4 := by
    unfold playerPaddleStep
    rw [if_neg]
    intro hcond
    rw [h3x] at hcond
    exact hpp ⟨hcond.1, hcond.2.1⟩
  have h6 : cpuPaddleStep W t4 = t4 := by
    unfold cpuPaddleStep
    rw [if_neg]
    intro hcond
    rw [h3x] at hcond
    exact hcp ⟨hcond.1, hcond.2.1⟩
  have h7 : scoreStep W H r rd t4 = t4 := by
    unfold scoreStep
    rw [if_neg, if_neg]
    · rw [h3x]
      exact not_lt.mpr hs2
    · rw [h3x]
      exact not_lt.mpr hs1
  have hfinal : (update W H ks r rd dt s).ballX = s.ballX + s.ballVx * dt * 10 := by
    unfold update preScore
    rw [← ht4, h5, h6, h7, h3x]
  refine ⟨hfinal, fun hdt hvx => ?_⟩
  rw [hfinal]
  nlinarith

end Pong

namespace Pong

/-- Witness for the amended C3 at dt = −1 on `s0`. -/
theorem negative_dt_integrates_witness :
    ¬(s0.ballX + s0.ballVx * (-1) * 10 - BALL_R ≤ playerX + PADDLE_WIDTH ∧
        playerX ≤ s0.ballX + s0.ballVx * (-1) * 10 - BALL_R) ∧
    ¬(cpuX 800 ≤ s0.ballX + s0.ballVx * (-1) * 10 + BALL_R ∧
        s0.ballX + s0.ballVx * (-1) * 10 + BALL_R ≤ cpuX 800 + PADDLE_WIDTH) ∧
    (-50:ℝ) ≤ s0.ballX + s0.ballVx * (-1) * 10 ∧
    s0.ballX + s0.ballVx * (-1) * 10 ≤ 800 + 50 ∧
    ((update 800 500 ks0 (1/2) 0 (-1) s0).ballX = s0.ballX + s0.ballVx * (-1) * 10 ∧
      ((-1:ℝ) < 0 → 0 < s0.ballVx → (update 800 500 ks0 (1/2) 0 (-1) s0).ballX < s0.ballX)) := by
  have h1 : ¬(s0.ballX + s0.ballVx * (-1) * 10 - BALL_R ≤ playerX + PADDLE_WIDTH ∧
      playerX ≤ s0.ballX + s0.ballVx * (-1) * 10 - BALL_R) := by
    norm_num [s0, playerX, PADDING, PADDLE_WIDTH, BALL_R]
  have h2 : ¬(cpuX 800 ≤ s0.ballX + s0.ballVx * (-1) * 10 + BALL_R ∧
      s0.ballX + s0.ballVx * (-1) * 10 + BALL_R ≤ cpuX 800 + PADDLE_WIDTH) := by
    norm_num [s0, cpuX, PADDING, PADDLE_WIDTH, BALL_R]
  have h3 : (-50:ℝ) ≤ s0.ballX + s0.ballVx * (-1) * 10 := by norm_num [s0]
  have h4 : s0.ballX + s0.ballVx * (-1) * 10 ≤ 800 + 50 := by norm_num [s0]
  exact ⟨h1, h2, h3, h4, negative_dt_integrates 800 500 ks0 (1/2) 0 (-1) s0 h1 h2 h3 h4⟩

end Pong

namespace Pong

/-- Claim C4 (amended): a dt = 0 tick is an identity on the state
provided the state is quiescent for every conditional block: paddles in
bounds, the stored player velocity matching the current key input, the
ball strictly off both walls, outside both paddle-collision windows and
within the scoring margins. (A ball resting exactly on a wall is the
exception: its vy is negated even at dt = 0 — see the
counterexample.) -/
theorem update_zero_dt_identity (W H : ℝ) (ks : KeyState) (r rd : ℝ) (s : GameState)
    (hp0 : 0 ≤ s.playerY) (hp1 : s.playerY ≤ H - PADDLE_HEIGHT)
    (hc0 : 0 ≤ s.cpuY) (hc1 : s.cpuY ≤ H - PADDLE_HEIGHT)
    (hdy : s.playerDy = (if ks.up then -PLAYER_SPEED else if ks.down then PLAYER_SPEED else 0))
    (hw1 : 0 < s.ballY - BALL_R) (hw2 : s.ballY + BALL_R < H)
    (hpp : ¬(s.ballX - BALL_R ≤ playerX + PADDLE_WIDTH ∧ playerX ≤ s.ballX - BALL_R ∧
        s.playerY ≤ s.ballY + BALL_R ∧ s.ballY - BALL_R ≤ s.playerY + PADDLE_HEIGHT))
    (hcp : ¬(cpuX W ≤ s.ballX + BALL_R ∧ s.ballX + BALL_R ≤ cpuX W + PADDLE_WIDTH ∧
        s.cpuY ≤ s.ballY + BALL_R ∧ s.ballY - BALL_R ≤ s.cpuY + PADDLE_HEIGHT))
    (hs1 : -50 ≤ s.ballX) (hs2 : s.ballX ≤ W + 50) :
    update W H ks r rd 0 s = s := by
  have h1 : playerStep H ks 0 s = s := by
    unfold playerStep
    simp only [mul_zero, add_zero]
    rw [clamp_of_mem _ _ _ hp0 hp1, ← hdy]
  have h2 : cpuStep H 0 s = s := by
    unfold cpuStep
    simp only [mul_zero, zero_mul, neg_zero]
    rw [clamp_same]
    simp only [add_zero]
    rw [clamp_of_mem _ _ _ hc0 hc1]
  have h3 : moveBall 0 s = s := by
    unfold moveBall
    simp only [mul_zero, zero_mul, add_zero]
  have h4 : wallStep H s = s := by
    unfold wallStep
    rw [if_neg (not_le.mpr hw1), if_neg (not_le.mpr hw2)]
  have h5 : playerPaddleStep s = s := by
    unfold playerPaddleStep
    rw [if_neg hpp]
  have h6 : cpuPaddleStep W s = s := by
    unfold cpuPaddleStep
    rw [if_neg hcp]
  have h7 : scoreStep W H r rd s = s := by
    unfold scoreStep
    rw [if_neg (not_lt.mpr hs1), if_neg (not_lt.mpr hs2)]
  unfold update preScore
  rw [h1, h2, h3, h4, h5, h6, h7]

end Pong

namespace Pong

/-- Claim C4 counterexample: on a reachable state whose ball rests
exactly on the top wall (y = r = 8, as a prior top-wall bounce leaves
it), a dt = 0 tick re-fires the wall branch and negates vy (5 → −5), so
the dt = 0 step is not an identity. -/
theorem update_zero_dt_wall_flip_cex :
    s2.ballVy = 5 ∧
    (update 800 500 ks0 (1/2) 0 0 s2).ballVy = -5 ∧
    update 800 500 ks0 (1/2) 0 0 s2 ≠ s2 := by
  have e1 : playerStep 500 ks0 0 s2 = s2 := by
    norm_num [playerStep, ks0, s2, clamp, PLAYER_SPEED, PADDLE_HEIGHT, min_def, max_def]
  have e2 : cpuStep 500 0 s2 = s2 := by
    norm_num [cpuStep, s2, clamp, CPU_SPEED, PADDLE_HEIGHT, min_def, max_def]
  have e3 : moveBall 0 s2 = s2 := by
    norm_num [moveBall, s2]
  have e4 : wallStep 500 s2 = { s2 with ballVy := -5 } := by
    norm_num [wallStep, s2, BALL_R]
  have e5 : playerPaddleStep { s2 with ballVy := -5 } = { s2 with ballVy := -5 } := by
    norm_num [playerPaddleStep, s2, playerX, PADDING, PADDLE_WIDTH, PADDLE_HEIGHT, BALL_R]
  have e6 : cpuPaddleStep 800 { s2 with ballVy := -5 } = { s2 with ballVy := -5 } := by
    norm_num [cpuPaddleStep, s2, cpuX, PADDING, PADDLE_WIDTH, PADDLE_HEIGHT, BALL_R]
  have e7 : update 800 500 ks0 (1/2) 0 0 s2 = { s2 with ballVy := -5 } := by
    unfold update preScore
    rw [e1, e2, e3, e4, e5, e6]
    norm_num [scoreStep, s2]
  refine ⟨by norm_num [s2], by rw [e7], ?_⟩
  intro h
  rw [e7] at h
  have := congrArg GameState.ballVy h
  norm_num [s2] at this

/-- Claim C2 (code bug): with a pointer sample (clientY offset 100, so
clamped target 50) and ArrowDown held in the same tick, the tick ends
with the paddle at 56 = clamp(50 + 6·1), not at the pointer target 50:
keyboard velocity integration still applies after the pointer sample,
although the source's own comment says the mouse sets the absolute
position instead (the `mouseActive` flag is set but never read). -/
theorem mouse_then_key_tick_eval :
    (mouseMove 500 100 s0).playerY = 50 ∧
    (update 800 500 { up := false, down := true } (1/2) 0 1 (mouseMove 500 100 s0)).playerY = 56 ∧
    (update 800 500 { up := false, down := true } (1/2) 0 1 (mouseMove 500 100 s0)).playerY
      ≠ (mouseMove 500 100 s0).playerY := by
  have hm : (mouseMove 500 100 s0).playerY = 50 := by
    norm_num [mouseMove, s0, clamp, PADDLE_HEIGHT, min_def, max_def]
  have hu : (update 800 500 { up := false, down := true } (1/2) 0 1 (mouseMove 500 100 s0)).playerY
      = (playerStep 500 { up := false, down := true } 1 (mouseMove 500 100 s0)).playerY := by
    unfold update preScore
    simp only [scoreStep_playerY, cpuPaddleStep_playerY, playerPaddleStep_playerY,
      wallStep_playerY, moveBall_playerY, cpuStep_playerY]
  have hp : (playerStep 500 { up := false, down := true } 1 (mouseMove 500 100 s0)).playerY
      = 56 := by
    rw [playerStep_playerY]
    norm_num [mouseMove, s0, clamp, PLAYER_SPEED, PADDLE_HEIGHT, min_def, max_def]
  refine ⟨hm, by rw [hu, hp], ?_⟩
  rw [hu, hp, hm]
  norm_num

/-- Claim C10 (confirmed): paddle collision is only checked after
position integration against the moved ball's x-span, so a fast ball
(vx = −20, dt = 1) whose leading edge starts right of the player paddle
(84 > 22) ends far past it (−116 < 12) with no bounce (vx unchanged)
and past the scoring boundary (x = −108 < −50), where the CPU then
scores: the ball tunnels through the paddle. -/
theorem paddle_tunneling :
    playerX + PADDLE_WIDTH < s4.ballX - BALL_R ∧
    (preScore 800 500 ks0 1 s4).ballX - BALL_R < playerX ∧
    (preScore 800 500 ks0 1 s4).ballVx = s4.ballVx ∧
    (preScore 800 500 ks0 1 s4).ballX < -50 ∧
    (update 800 500 ks0 (1/2) 0 1 s4).scoreCpu = s4.scoreCpu + 1 := by
  have e1 : playerStep 500 ks0 1 s4 = s4 := by
    norm_num [playerStep, ks0, s4, clamp, PLAYER_SPEED, PADDLE_HEIGHT, min_def, max_def]
  have e2 : cpuStep 500 1 s4 = s4 := by
    norm_num [cpuStep, s4, clamp, CPU_SPEED, PADDLE_HEIGHT, min_def, max_def]
  have e3 : moveBall 1 s4 = { s4 with ballX := -108 } := by
    norm_num [moveBall, s4]
  have e4 : wallStep 500 { s4 with ballX := -108 } = { s4 with ballX := -108 } := by
    norm_num [wallStep, s4, BALL_R]
  have e5 : playerPaddleStep { s4 with ballX := -108 } = { s4 with ballX := -108 } := by
    norm_num [playerPaddleStep, s4, playerX, PADDING, PADDLE_WIDTH, PADDLE_HEIGHT, BALL_R]
  have e6 : cpuPaddleStep 800 { s4 with ballX := -108 } = { s4 with ballX := -108 } := by
    norm_num [cpuPaddleStep, s4, cpuX, PADDING, PADDLE_WIDTH, PADDLE_HEIGHT, BALL_R]
  have hpre : preScore 800 500 ks0 1 s4 = { s4 with ballX := -108 } := by
    unfold preScore
    rw [e1, e2, e3, e4, e5, e6]
  have hup : (update 800 500 ks0 (1/2) 0 1 s4).scoreCpu = 1 := by
    unfold update
    rw [hpre]
    have : scoreStep 800 500 (1/2) 0 { s4 with ballX := -108 }
        = resetBall 800 500 (1/2) 0 .right { { s4 with ballX := -108 } with scoreCpu := 1 } := by
      norm_num [scoreStep, s4]
    rw [this, resetBall_scoreCpu]
  refine ⟨?_, ?_, ?_, ?_, ?_⟩
  · norm_num [s4, playerX, PADDING, PADDLE_WIDTH, BALL_R]
  · rw [hpre]
    norm_num [s4, playerX, PADDING, BALL_R]
  · rw [hpre]
  · rw [hpre]
    norm_num [s4]
  · rw [hup]
    norm_num [s4]

end Pong

namespace Pong

/-- Witness for the amended C4 on the quiet state `s0`. -/
theorem update_zero_dt_identity_witness : update 800 500 ks0 (1/2) 0 0 s0 = s0 :=
  update_zero_dt_identity 800 500 ks0 (1/2) 0 s0
    (by norm_num [s0]) (by norm_num [s0, PADDLE_HEIGHT])
    (by norm_num [s0]) (by norm_num [s0, PADDLE_HEIGHT])
    (by norm_num [s0, ks0, PLAYER_SPEED])
    (by norm_num [s0, BALL_R]) (by norm_num [s0, BALL_R])
    (by norm_num [s0, playerX, PADDING, PADDLE_WIDTH, PADDLE_HEIGHT, BALL_R])
    (by norm_num [s0, cpuX, PADDING, PADDLE_WIDTH, PADDLE_HEIGHT, BALL_R])
    (by norm_num [s0]) (by norm_num [s0])

end Pong
